import Mathlib

/-!
Verification development for the kand technical-analysis library.

The development shallowly embeds the Rust kernels of the kand crate
(src/kand/src/ta/ohlcv and src/kand/src/ta/stats) into Lean.

Modelling conventions, used uniformly below:

* Machine floats (the crate's TAFloat) are modelled by exact rationals.
  A possibly-NaN float is modelled by the type F, an Option over the
  rationals, where none stands for NaN.  IEEE arithmetic on non-NaN,
  non-overflowing values is modelled exactly; NaN propagates through
  the lifted arithmetic operators, and every ordered comparison with a
  NaN argument is false, exactly as in IEEE-754.  Rust's mul_add is an
  exact fused multiply-add, so it is modelled as a * b + c.  Rational
  division by zero yields 0 where IEEE would produce an infinity; no
  theorem below exercises that corner.
* The crate's cargo features check, check-nan and allow-nan are
  compile-time toggles; following the spec they are modelled as a
  runtime Config record threaded through every kernel.
* Rust Result is modelled by Except, buffers by lists written with
  List.set, and the batch loops by fuel recursion on the number of
  remaining iterations (each loop runs exactly len - start iterations).
* Out-of-range reads, which would panic in Rust and are unreachable in
  validated calls, default to the value 0.
-/

/-- Error taxonomy of the crate (KandError in the Rust source). -/
inductive KandError where
  | InvalidData
  | LengthMismatch
  | InsufficientData
  | InvalidParameter
  | NaNDetected
deriving DecidableEq, Repr

/-- Validation configuration, modelling the cargo features check,
check-nan and allow-nan as runtime flags per spec section 9. -/
structure Config where
  check : Bool
  check_nan : Bool
  allow_nan : Bool
deriving DecidableEq, Repr

/-- A possibly-NaN floating-point value: none is NaN, some q is the
exact value q. -/
abbrev F : Type := Option ℚ

instance {ε α : Type} [DecidableEq ε] [DecidableEq α] : DecidableEq (Except ε α) := fun x y =>
  match x, y with
  | .ok a, .ok b =>
      if h : a = b then isTrue (by rw [h]) else isFalse (fun hh => h (Except.ok.inj hh))
  | .error a, .error b =>
      if h : a = b then isTrue (by rw [h]) else isFalse (fun hh => h (Except.error.inj hh))
  | .ok _, .error _ => isFalse (fun hh => Except.noConfusion hh)
  | .error _, .ok _ => isFalse (fun hh => Except.noConfusion hh)

/-- Model of f64::is_nan. -/
def isNanF (x : F) : Bool := x.isNone

/-- NaN-propagating addition. -/
def addF : F → F → F
  | some a, some b => some (a + b)
  | _, _ => none

/-- NaN-propagating subtraction. -/
def subF : F → F → F
  | some a, some b => some (a - b)
  | _, _ => none

/-- NaN-propagating multiplication. -/
def mulF : F → F → F
  | some a, some b => some (a * b)
  | _, _ => none

/-- NaN-propagating negation. -/
def negF : F → F
  | some a => some (-a)
  | none => none

/-- NaN-propagating division (exact; division by zero is the rational
convention 0, a corner no theorem exercises). -/
def divF : F → F → F
  | some a, some b => some (a / b)
  | _, _ => none

/-- Model of a.mul_add(b, c): an exact fused multiply-add. -/
def fmaF : F → F → F → F
  | some a, some b, some c => some (a * b + c)
  | _, _, _ => none

/-- Indexed read from a float buffer (out of range defaults to 0). -/
def getF (l : List F) (i : ℕ) : F := l.getD i (some 0)

/-- Indexed read from an exact-valued series (out of range defaults to 0). -/
def getQ (l : List ℚ) (i : ℕ) : ℚ := l.getD i 0

/-- Model of input.iter().take(n).sum over floats: a left fold of
addition starting from 0. -/
def sumTakeF (l : List F) (n : ℕ) : F := (l.take n).foldl addF (some 0)

/-- Model of the Rust idiom writing a value to the first k slots of a
buffer, one List.set per index. -/
def fillTo {α : Type} (l : List α) (a : α) : ℕ → List α
  | 0 => l
  | k + 1 => (fillTo l a k).set k a

/-- Lookback resolver of sma.rs lines 19-27: errors when the period is
below 2 under the check feature, otherwise period - 1. -/
def sma.lookback (cfg : Config) (param_period : ℕ) : Except KandError ℕ :=
  if cfg.check = true ∧ param_period < 2 then .error .InvalidParameter
  else .ok (param_period - 1)

/-- Value of the running sum variable of the sma batch loop
(sma.rs lines 96-101) after k window slides: the sum of the first
period inputs, then sum + input at (period + k) - input at k per slide. -/
def sma.smaSum (input : List ℚ) (period : ℕ) : ℕ → ℚ
  | 0 => (input.take period).foldl (· + ·) 0
  | k + 1 => sma.smaSum input period k + getQ input (period + k) - getQ input k

/-- Exact value the sma batch kernel writes at a valid index i
(sma.rs lines 98 and 102): the running sum of the window ending at i,
divided by the period. -/
def sma.smaOut (input : List ℚ) (period : ℕ) (i : ℕ) : ℚ :=
  sma.smaSum input period (i + 1 - period) / (period : ℚ)

/-- Main loop of the sma batch kernel (sma.rs lines 100-103): at index
i the running sum becomes sum + input at i - input at (i - period), and
sum / period is written at i. -/
def sma.sma_loop (input : List F) (period : ℕ) (pf : F) (i fuel : ℕ) (sum : F)
    (out : List F) : List F :=
  match fuel with
  | 0 => out
  | fuel' + 1 =>
      let sum' := subF (addF sum (getF input i)) (getF input (i - period))
      sma.sma_loop input period pf (i + 1) fuel' sum' (out.set i (divF sum' pf))

/-- Batch kernel sma (sma.rs lines 66-113): lookback, validation in
source order (empty, insufficient, length mismatch, NaN scan), initial
window sum written at the lookback index, the sliding loop, and the
allow-nan prefix fill. -/
def sma.sma (cfg : Config) (input : List F) (param_period : ℕ) (output_sma : List F) :
    Except KandError (List F) :=
  match sma.lookback cfg param_period with
  | .error e => .error e
  | .ok lb =>
    if cfg.check = true ∧ input.length = 0 then .error .InvalidData
    else if cfg.check = true ∧ input.length ≤ lb then .error .InsufficientData
    else if cfg.check = true ∧ ¬ (output_sma.length = input.length) then .error .LengthMismatch
    else if cfg.check_nan = true ∧ input.any isNanF = true then .error .NaNDetected
    else
      let sum := sumTakeF input param_period
      let pf : F := some ((param_period : ℚ))
      let out1 := output_sma.set lb (divF sum pf)
      let out2 := sma.sma_loop input param_period pf (lb + 1) (input.length - (lb + 1)) sum out1
      .ok (if cfg.allow_nan = true then fillTo out2 none lb else out2)

/-- Incremental kernel sma_inc (sma.rs lines 142-163): parameter and
NaN checks, then previous sma + (new - old) / period. -/
def sma.sma_inc (cfg : Config) (prev_sma input_new_price input_old_price : F)
    (param_period : ℕ) : Except KandError F :=
  if cfg.check = true ∧ param_period < 2 then .error .InvalidParameter
  else if cfg.check_nan = true ∧
      (isNanF prev_sma = true ∨ isNanF input_new_price = true ∨ isNanF input_old_price = true)
    then .error .NaNDetected
  else .ok (addF prev_sma (divF (subF input_new_price input_old_price)
    (some ((param_period : ℚ)))))

/-- Lookback resolver of wma.rs lines 26-34: errors when the period is
below 2 under the check feature, otherwise period - 1. -/
def wma.lookback (cfg : Config) (opt_period : ℕ) : Except KandError ℕ :=
  if cfg.check = true ∧ opt_period < 2 then .error .InvalidParameter
  else .ok (opt_period - 1)

/-- Lookback resolver of rocp.rs lines 25-34: errors when the period is
below 1 under the check feature, otherwise the period itself. -/
def rocp.lookback (cfg : Config) (opt_period : ℕ) : Except KandError ℕ :=
  if cfg.check = true ∧ opt_period < 1 then .error .InvalidParameter
  else .ok opt_period

/-- Main loop of the rocp batch kernel (rocp.rs lines 116-119): writes
(input at i - input at (i - period)) / input at (i - period) at each i
from the lookback index on. -/
def rocp.rocp_loop (input : List F) (period : ℕ) (i fuel : ℕ) (out : List F) : List F :=
  match fuel with
  | 0 => out
  | fuel' + 1 =>
      rocp.rocp_loop input period (i + 1) fuel'
        (out.set i (divF (subF (getF input i) (getF input (i - period)))
          (getF input (i - period))))

/-- Batch kernel rocp (rocp.rs lines 80-127): lookback, validation in
source order, the main loop, then an unconditional NaN fill of the
first lookback slots. -/
def rocp.rocp (cfg : Config) (input_price : List F) (opt_period : ℕ) (output_rocp : List F) :
    Except KandError (List F) :=
  match rocp.lookback cfg opt_period with
  | .error e => .error e
  | .ok lb =>
    if cfg.check = true ∧ input_price.length = 0 then .error .InvalidData
    else if cfg.check = true ∧ input_price.length ≤ lb then .error .InsufficientData
    else if cfg.check = true ∧ ¬ (output_rocp.length = input_price.length) then
      .error .LengthMismatch
    else if cfg.check_nan = true ∧ input_price.any isNanF = true then .error .NaNDetected
    else .ok (fillTo
      (rocp.rocp_loop input_price opt_period lb (input_price.length - lb) output_rocp)
      none lb)

/-- Lookback resolver of ad.rs lines 19-21: always 0. -/
def ad.lookback : Except KandError ℕ := .ok 0

/-- Money Flow Multiplier expression of ad.rs lines 53-58: 0 when the
high-low range is zero, otherwise ((close - low) - (high - close))
divided by the range. -/
def ad.mfmQ (h l c : ℚ) : ℚ :=
  if h - l = 0 then 0 else ((c - l) - (h - c)) / (h - l)

/-- NaN-propagating lift of the Money Flow Multiplier: with a NaN
argument the zero-range test is false and the division produces NaN,
so NaN propagates. -/
def ad.mfmF : F → F → F → F
  | some h, some l, some c => some (ad.mfmQ h l c)
  | _, _, _ => none

/-- Core incremental A/D step ad_inc_raw (ad.rs lines 191-205):
mfm.mul_add(volume, previous A/D). -/
def ad.ad_inc_raw (input_high input_low input_close input_volume prev_ad : F) : F :=
  fmaF (ad.mfmF input_high input_low input_close) input_volume prev_ad

/-- Incremental kernel ad_inc (ad.rs lines 238-264): NaN checks under
the check-nan feature, then ad_inc_raw. -/
def ad.ad_inc (cfg : Config) (input_high input_low input_close input_volume prev_ad : F) :
    Except KandError F :=
  if cfg.check_nan = true ∧
      (isNanF input_high = true ∨ isNanF input_low = true ∨ isNanF input_close = true ∨
        isNanF input_volume = true ∨ isNanF prev_ad = true)
    then .error .NaNDetected
  else .ok (ad.ad_inc_raw input_high input_low input_close input_volume prev_ad)

/-- Value the ad_raw batch loop (ad.rs lines 50-61) writes at index i:
the running ad variable starts at 0 and each step adds mfm times
volume via mul_add. -/
def ad.adQ (hs ls cs vs : List ℚ) : ℕ → ℚ
  | 0 => ad.mfmQ (getQ hs 0) (getQ ls 0) (getQ cs 0) * getQ vs 0 + 0
  | i + 1 => ad.mfmQ (getQ hs (i + 1)) (getQ ls (i + 1)) (getQ cs (i + 1)) * getQ vs (i + 1)
      + ad.adQ hs ls cs vs i

/-- The full A/D line written by ad_raw, as a list aligned with the
inputs. -/
def ad.adLine (hs ls cs vs : List ℚ) : List ℚ :=
  (List.range hs.length).map (ad.adQ hs ls cs vs)

/-- Modelled from the spec: the ema module of the kand crate is not
under src/.  Per spec section 4.1 and the wasm binding documentation
the period must be at least 2, and the lookback of a single-period
indicator is period - 1 (spec section 4.2). -/
def ema.lookback (cfg : Config) (param_period : ℕ) : Except KandError ℕ :=
  if cfg.check = true ∧ param_period < 2 then .error .InvalidParameter
  else .ok (param_period - 1)

/-- Modelled from the spec: the default smoothing factor 2 / (period + 1)
documented in the wasm ema binding and in adosc.rs lines 166-167. -/
def ema.kDef (p : ℕ) : ℚ := 2 / ((p : ℚ) + 1)

/-- Modelled from the spec: the ema incremental kernel, absent from
src/.  It validates the period (at least 2, per spec section 4.1 and
the wasm binding contract), checks NaN under check-nan, and applies the
recurrence (price - previous ema) * k + previous ema stated in
adosc.rs lines 166-167, with k defaulting to 2 / (period + 1). -/
def ema.ema_inc (cfg : Config) (input_price prev_ema : F) (param_period : ℕ)
    (param_k : Option ℚ) : Except KandError F :=
  if cfg.check = true ∧ param_period < 2 then .error .InvalidParameter
  else if cfg.check_nan = true ∧ (isNanF input_price = true ∨ isNanF prev_ema = true) then
    .error .NaNDetected
  else .ok (addF (mulF (subF input_price prev_ema) (some (param_k.getD (ema.kDef param_period))))
    prev_ema)

/-- Modelled from the spec: value of the ema batch recurrence after j
slides past the seed.  Spec section 4.3 seeds the recursive formula
from the first full window (the mean of the first period inputs); each
later value follows the recurrence of adosc.rs lines 166-167. -/
def ema.emaAux (xs : List ℚ) (p : ℕ) (k : ℚ) : ℕ → ℚ
  | 0 => (xs.take p).foldl (· + ·) 0 / (p : ℚ)
  | j + 1 => (getQ xs (p + j) - ema.emaAux xs p k j) * k + ema.emaAux xs p k j

/-- Modelled from the spec: the ema batch value at index i (valid from
index p - 1 on). -/
def ema.emaOut (xs : List ℚ) (p : ℕ) (k : ℚ) (i : ℕ) : ℚ := ema.emaAux xs p k (i + 1 - p)

/-- Lookback resolver of adosc.rs lines 20-33: rejects fast or slow
below 2 and fast not below slow under the check feature, then defers
to the slow ema lookback. -/
def adosc.lookback (cfg : Config) (param_fast_period param_slow_period : ℕ) :
    Except KandError ℕ :=
  if cfg.check = true ∧
      (param_fast_period < 2 ∨ param_slow_period < 2 ∨ param_slow_period ≤ param_fast_period)
    then .error .InvalidParameter
  else ema.lookback cfg param_slow_period

/-- Incremental kernel adosc_inc (adosc.rs lines 196-242): its own
guard rejects a zero fast or slow period and fast not below slow; after
the NaN scan it chains ad_inc and the two ema_inc calls, propagating
any error, and returns (fast ema - slow ema, ad, fast ema, slow ema). -/
def adosc.adosc_inc (cfg : Config)
    (input_high input_low input_close input_volume prev_ad prev_ad_fast_ema prev_ad_slow_ema : F)
    (param_fast_period param_slow_period : ℕ) : Except KandError (F × F × F × F) :=
  if cfg.check = true ∧
      (param_fast_period = 0 ∨ param_slow_period = 0 ∨ param_slow_period ≤ param_fast_period)
    then .error .InvalidParameter
  else if cfg.check_nan = true ∧
      (isNanF input_high = true ∨ isNanF input_low = true ∨ isNanF input_close = true ∨
        isNanF input_volume = true ∨ isNanF prev_ad = true ∨ isNanF prev_ad_fast_ema = true ∨
        isNanF prev_ad_slow_ema = true)
    then .error .NaNDetected
  else
    match ad.ad_inc cfg input_high input_low input_close input_volume prev_ad with
    | .error e => .error e
    | .ok output_ad =>
      match ema.ema_inc cfg output_ad prev_ad_fast_ema param_fast_period none with
      | .error e => .error e
      | .ok output_ad_fast_ema =>
        match ema.ema_inc cfg output_ad prev_ad_slow_ema param_slow_period none with
        | .error e => .error e
        | .ok output_ad_slow_ema =>
          .ok (subF output_ad_fast_ema output_ad_slow_ema, output_ad, output_ad_fast_ema,
            output_ad_slow_ema)

/-- Exact value the adosc batch kernel (adosc.rs lines 144-151) writes
at a valid index i: the fast ema of the A/D line minus the slow ema of
the A/D line, both with the default smoothing factor. -/
def adosc.adoscQ (hs ls cs vs : List ℚ) (fast slow i : ℕ) : ℚ :=
  ema.emaOut (ad.adLine hs ls cs vs) fast (ema.kDef fast) i -
    ema.emaOut (ad.adLine hs ls cs vs) slow (ema.kDef slow) i

/-- Lookback resolver of correl.rs lines 24-32: errors when the period
is below 2 under the check feature, otherwise period - 1. -/
def correl.lookback (cfg : Config) (param_period : ℕ) : Except KandError ℕ :=
  if cfg.check = true ∧ param_period < 2 then .error .InvalidParameter
  else .ok (param_period - 1)

/-- The six caller-supplied output buffers of the correl batch kernel. -/
structure CorrelBufs where
  correl : List (Option (ℚ × ℚ))
  sum0 : List F
  sum1 : List F
  sum0sq : List F
  sum1sq : List F
  sum01 : List F
deriving DecidableEq, Repr

/-- Correlation entry computed from exact window sums, per the Pearson
block repeated at correl.rs lines 192-202, 227-236 and 358-369.  The
source computes denominator = sqrt(d0 * d1) and outputs
numerator / denominator when denominator > 0, else NaN.  A float sqrt
is positive exactly on positive arguments and every comparison against
a NaN sqrt is false, so the guard is 0 < d0 * d1; since the square root
is irrational the non-NaN value is kept symbolically as the pair
(numerator, squared denominator). -/
def correl.correlEntryQ (n s0 s1 s0q s1q s01 : ℚ) : Option (ℚ × ℚ) :=
  let numerator := n * s01 - s0 * s1
  let denominator_0 := n * s0q - s0 * s0
  let denominator_1 := n * s1q - s1 * s1
  if 0 < denominator_0 * denominator_1 then some (numerator, denominator_0 * denominator_1)
  else none

/-- NaN-propagating lift of the correlation entry: a NaN in any sum
makes the numerator or the squared denominator NaN, the guard false,
and the output NaN. -/
def correl.correlEntryF (n : ℚ) : F → F → F → F → F → Option (ℚ × ℚ)
  | some s0, some s1, some s0q, some s1q, some s01 => correl.correlEntryQ n s0 s1 s0q s1q s01
  | _, _, _, _, _ => none

/-- Initial-window sums of correl.rs lines 166-182 after the first k
iterations: running sum, sums of squares and sum of products over
indices below k. -/
def correl.correlInit (in0 in1 : List F) : ℕ → F × F × F × F × F
  | 0 => (some 0, some 0, some 0, some 0, some 0)
  | k + 1 =>
      let p := correl.correlInit in0 in1 k
      let v0 := getF in0 k
      let v1 := getF in1 k
      (addF p.1 v0, addF p.2.1 v1, addF p.2.2.1 (mulF v0 v0), addF p.2.2.2.1 (mulF v1 v1),
        addF p.2.2.2.2 (mulF v0 v1))

/-- Sliding-window loop of the correl batch kernel (correl.rs lines
205-237): drop the sample leaving the window, add the new one, store
the five sums and the correlation entry at index i, and advance. -/
def correl.correl_loop (in0 in1 : List F) (n : ℚ) (period : ℕ) (i fuel : ℕ)
    (s0 s1 s0q s1q s01 : F) (bufs : CorrelBufs) : CorrelBufs :=
  match fuel with
  | 0 => bufs
  | fuel' + 1 =>
      let old0 := getF in0 (i - period)
      let old1 := getF in1 (i - period)
      let new0 := getF in0 i
      let new1 := getF in1 i
      let s0' := addF (subF s0 old0) new0
      let s1' := addF (subF s1 old1) new1
      let s0q' := fmaF new0 new0 (fmaF old0 (negF old0) s0q)
      let s1q' := fmaF new1 new1 (fmaF old1 (negF old1) s1q)
      let s01' := fmaF new0 new1 (fmaF old0 (negF old1) s01)
      correl.correl_loop in0 in1 n period (i + 1) fuel' s0' s1' s0q' s1q' s01'
        { correl := bufs.correl.set i (correl.correlEntryF n s0' s1' s0q' s1q' s01'),
          sum0 := bufs.sum0.set i s0',
          sum1 := bufs.sum1.set i s1',
          sum0sq := bufs.sum0sq.set i s0q',
          sum1sq := bufs.sum1sq.set i s1q',
          sum01 := bufs.sum01.set i s01' }

/-- Batch kernel correl (correl.rs lines 111-250): lookback, validation
in source order (empty, insufficient, length mismatch over all seven
arrays, parameter, NaN scan over both inputs), initial window sums and
first entry at the lookback index, the sliding loop, then the NaN fill
of the first lookback slots of all six outputs. -/
def correl.correl (cfg : Config) (input_0 input_1 : List F) (param_period : ℕ)
    (bufs0 : CorrelBufs) : Except KandError CorrelBufs :=
  match correl.lookback cfg param_period with
  | .error e => .error e
  | .ok lb =>
    if cfg.check = true ∧ input_0.length = 0 then .error .InvalidData
    else if cfg.check = true ∧ input_0.length ≤ lb then .error .InsufficientData
    else if cfg.check = true ∧ ¬ (input_1.length = input_0.length ∧
        bufs0.correl.length = input_0.length ∧ bufs0.sum0.length = input_0.length ∧
        bufs0.sum1.length = input_0.length ∧ bufs0.sum0sq.length = input_0.length ∧
        bufs0.sum1sq.length = input_0.length ∧ bufs0.sum01.length = input_0.length)
      then .error .LengthMismatch
    else if cfg.check = true ∧ param_period < 2 then .error .InvalidParameter
    else if cfg.check_nan = true ∧
        ((List.range input_0.length).any
          (fun i => isNanF (getF input_0 i) || isNanF (getF input_1 i))) = true
      then .error .NaNDetected
    else
      let s := correl.correlInit input_0 input_1 param_period
      let n : ℚ := (param_period : ℚ)
      let bufs1 : CorrelBufs :=
        { correl := bufs0.correl.set lb (correl.correlEntryF n s.1 s.2.1 s.2.2.1 s.2.2.2.1
            s.2.2.2.2),
          sum0 := bufs0.sum0.set lb s.1,
          sum1 := bufs0.sum1.set lb s.2.1,
          sum0sq := bufs0.sum0sq.set lb s.2.2.1,
          sum1sq := bufs0.sum1sq.set lb s.2.2.2.1,
          sum01 := bufs0.sum01.set lb s.2.2.2.2 }
      let bufs2 := correl.correl_loop input_0 input_1 n param_period param_period
        (input_0.length - param_period) s.1 s.2.1 s.2.2.1 s.2.2.2.1 s.2.2.2.2 bufs1
      .ok
        { correl := fillTo bufs2.correl none lb,
          sum0 := fillTo bufs2.sum0 none lb,
          sum1 := fillTo bufs2.sum1 none lb,
          sum0sq := fillTo bufs2.sum0sq none lb,
          sum1sq := fillTo bufs2.sum1sq none lb,
          sum01 := fillTo bufs2.sum01 none lb }

/-- Incremental kernel correl_inc (correl.rs lines 308-379): parameter
and NaN checks, the five sliding-sum updates via mul_add, then the same
Pearson entry as the batch kernel; returns the entry and the five new
sums. -/
def correl.correl_inc (cfg : Config)
    (input_new_0 input_new_1 input_old_0 input_old_1 prev_sum_0 prev_sum_1 prev_sum_0_sq
      prev_sum_1_sq prev_sum_01 : F) (param_period : ℕ) :
    Except KandError (Option (ℚ × ℚ) × F × F × F × F × F) :=
  if cfg.check = true ∧ param_period < 2 then .error .InvalidParameter
  else if cfg.check_nan = true ∧
      (isNanF input_new_0 = true ∨ isNanF input_new_1 = true ∨ isNanF input_old_0 = true ∨
        isNanF input_old_1 = true ∨ isNanF prev_sum_0 = true ∨ isNanF prev_sum_1 = true ∨
        isNanF prev_sum_0_sq = true ∨ isNanF prev_sum_1_sq = true ∨ isNanF prev_sum_01 = true)
    then .error .NaNDetected
  else
    let new_sum_0 := addF (subF prev_sum_0 input_old_0) input_new_0
    let new_sum_1 := addF (subF prev_sum_1 input_old_1) input_new_1
    let new_sum_0_sq := fmaF input_new_0 input_new_0 (fmaF input_old_0 (negF input_old_0)
      prev_sum_0_sq)
    let new_sum_1_sq := fmaF input_new_1 input_new_1 (fmaF input_old_1 (negF input_old_1)
      prev_sum_1_sq)
    let new_sum_01 := fmaF input_new_0 input_new_1 (fmaF input_old_0 (negF input_old_1)
      prev_sum_01)
    .ok (correl.correlEntryF ((param_period : ℚ)) new_sum_0 new_sum_1 new_sum_0_sq new_sum_1_sq
      new_sum_01, new_sum_0, new_sum_1, new_sum_0_sq, new_sum_1_sq, new_sum_01)

/-- Lookback resolver of ha.rs lines 14-16: always 1. -/
def ha.lookback : Except KandError ℕ := .ok 1

/-- Payload of the incremental kernel ha_inc (ha.rs lines 214-219),
returning (ha open, ha high, ha low, ha close); the check-nan guard of
the source returns an error and produces no candle, so the candle
invariants concern this payload. -/
def ha.ha_inc (curr_open curr_high curr_low curr_close prev_ha_open prev_ha_close : ℚ) :
    ℚ × ℚ × ℚ × ℚ :=
  let ha_close := (curr_open + curr_high + curr_low + curr_close) / 4
  let ha_open := (prev_ha_open + prev_ha_close) / 2
  let ha_high := max (max curr_high ha_open) ha_close
  let ha_low := min (min curr_low ha_open) ha_close
  (ha_open, ha_high, ha_low, ha_close)

/-- Candles written by the ha batch kernel (ha.rs lines 124-144): the
first candle is seeded directly from the raw inputs, every later candle
comes from ha_inc applied to the previous ha open and close. -/
def ha.haOut (os hs ls cs : List ℚ) : ℕ → ℚ × ℚ × ℚ × ℚ
  | 0 => ((getQ os 0 + getQ cs 0) / 2, getQ hs 0, getQ ls 0,
      (getQ os 0 + getQ hs 0 + getQ ls 0 + getQ cs 0) / 4)
  | i + 1 => ha.ha_inc (getQ os (i + 1)) (getQ hs (i + 1)) (getQ ls (i + 1)) (getQ cs (i + 1))
      (ha.haOut os hs ls cs i).1 (ha.haOut os hs ls cs i).2.2.2

/-! ### Generic list and float-model lemmas -/

theorem getD_set {α : Type} (l : List α) (m j : ℕ) (v d : α) :
    (l.set m v).getD j d = if j = m ∧ m < l.length then v else l.getD j d := by
  simp only [List.getD_eq_getElem?_getD, List.getElem?_set]
  by_cases h : m = j
  · subst h
    by_cases h2 : m < l.length
    · simp [h2]
    · rw [List.getElem?_eq_none (le_of_not_lt h2)]
      simp [h2]
  · have hne : ¬ (j = m ∧ m < l.length) := fun hh => h hh.1.symm
    rw [if_neg h, if_neg hne]

theorem getF_map_some (l : List ℚ) (j : ℕ) : getF (l.map some) j = some (getQ l j) := by
  simp only [getF, getQ, List.getD_eq_getElem?_getD, List.getElem?_map]
  cases h : l[j]? <;> simp

theorem getF_replicate (len : ℕ) (c : ℚ) (j : ℕ) (h : j < len) :
    getF (List.replicate len (some c)) j = some c := by
  simp [getF, List.getElem?_replicate, h]

theorem isNanF_map_some (l : List ℚ) : (l.map some).any isNanF = false := by
  simp [isNanF, List.any_eq_false]

theorem foldl_addF_map_some (l : List ℚ) (a : ℚ) :
    (l.map some).foldl addF (some a) = some (l.foldl (· + ·) a) := by
  induction l generalizing a with
  | nil => rfl
  | cons x t ih => simpa [addF] using ih (a + x)

theorem sumTakeF_map_some (l : List ℚ) (n : ℕ) :
    sumTakeF (l.map some) n = some ((l.take n).foldl (· + ·) 0) := by
  rw [sumTakeF, ← List.map_take, foldl_addF_map_some]

theorem length_fillTo {α : Type} (l : List α) (a : α) (k : ℕ) :
    (fillTo l a k).length = l.length := by
  induction k with
  | zero => rfl
  | succ k ih => simp [fillTo, ih]

theorem getD_fillTo {α : Type} (l : List α) (a : α) (k j : ℕ) (d : α) :
    (fillTo l a k).getD j d = if j < k ∧ j < l.length then a else l.getD j d := by
  induction k with
  | zero => simp [fillTo]
  | succ k ih =>
      rw [fillTo, getD_set, ih, length_fillTo]
      by_cases h1 : j = k
      · subst h1
        by_cases h2 : j < l.length
        · rw [if_pos ⟨rfl, h2⟩, if_pos ⟨by omega, h2⟩]
        · rw [if_neg (fun hh => h2 hh.2), if_neg (fun hh => h2 hh.2),
            if_neg (fun hh => h2 hh.2)]
      · rw [if_neg (fun hh => h1 hh.1)]
        by_cases h3 : j < k ∧ j < l.length
        · rw [if_pos h3, if_pos ⟨by omega, h3.2⟩]
        · rw [if_neg h3, if_neg (fun hh => h3 ⟨by omega, hh.2⟩)]

theorem mfmF_some (h l c : ℚ) : ad.mfmF (some h) (some l) (some c) = some (ad.mfmQ h l c) := rfl

/-! ### Lemmas about the sma batch loop -/

theorem sma_loop_length (input : List F) (period : ℕ) (pf : F) :
    ∀ fuel i sum out, (sma.sma_loop input period pf i fuel sum out).length = out.length := by
  intro fuel
  induction fuel with
  | zero => intro i sum out; rfl
  | succ fuel ih => intro i sum out; rw [sma.sma_loop, ih]; simp

theorem sma_loop_getD (inputQ : List ℚ) (period : ℕ) (hp : 1 ≤ period) :
    ∀ fuel k out j d,
      (sma.sma_loop (inputQ.map some) period (some ((period : ℚ))) (period + k) fuel
          (some (sma.smaSum inputQ period k)) out).getD j d =
        if period + k ≤ j ∧ j < period + k + fuel ∧ j < out.length then
          some (sma.smaOut inputQ period j)
        else out.getD j d := by
  intro fuel
  induction fuel with
  | zero =>
      intro k out j d
      rw [sma.sma_loop]
      rw [if_neg (by omega)]
  | succ fuel ih =>
      intro k out j d
      rw [sma.sma_loop]
      have hsub : period + k - period = k := by omega
      have hsum : subF (addF (some (sma.smaSum inputQ period k))
            (getF (inputQ.map some) (period + k)))
            (getF (inputQ.map some) (period + k - period)) =
          some (sma.smaSum inputQ period (k + 1)) := by
        rw [hsub, getF_map_some, getF_map_some]
        simp [addF, subF, sma.smaSum]
      simp only [hsum]
      have hout : divF (some (sma.smaSum inputQ period (k + 1))) (some ((period : ℚ))) =
          some (sma.smaOut inputQ period (period + k)) := by
        simp [divF, sma.smaOut, show period + k + 1 - period = k + 1 by omega]
      rw [hout]
      have harith : period + (k + 1) = period + k + 1 := by omega
      rw [show period + k + 1 = period + (k + 1) by omega, ih (k + 1)]
      rw [getD_set]
      simp only [List.length_set]
      by_cases hj : j = period + k
      · subst hj
        by_cases hlen : period + k < out.length
        · rw [if_neg (by omega), if_pos ⟨rfl, hlen⟩, if_pos (by omega)]
        · rw [if_neg (by omega), if_neg (by simp [hlen]), if_neg (by omega)]
      · by_cases hin : period + (k + 1) ≤ j ∧ j < period + (k + 1) + fuel ∧ j < out.length
        · rw [if_pos hin, if_pos (by omega)]
        · rw [if_neg hin, if_neg (fun hh => hj hh.1), if_neg (by omega)]

/-- Full characterisation of a validated sma batch call on clean
inputs: it succeeds, and the output holds the window means from the
lookback index on while the slots before the lookback index are NaN
exactly when allow-nan is configured and the caller's initial contents
otherwise. -/
theorem sma_spec (cfg : Config) (inputQ : List ℚ) (period : ℕ) (out0 : List F)
    (h2 : 2 ≤ period) (hlen : period ≤ inputQ.length) (hout : out0.length = inputQ.length) :
    ∃ out, sma.sma cfg (inputQ.map some) period out0 = .ok out ∧
      out.length = inputQ.length ∧
      (∀ j d, period - 1 ≤ j → j < inputQ.length → out.getD j d =
        some (sma.smaOut inputQ period j)) ∧
      (∀ j d, j < period - 1 → out.getD j d =
        if cfg.allow_nan = true then none else out0.getD j d) := by
  have hlb : sma.lookback cfg period = .ok (period - 1) := by
    simp [sma.lookback, show ¬ (period < 2) by omega]
  rw [sma.sma, hlb]
  simp only [List.length_map]
  rw [if_neg (by omega), if_neg (by omega), if_neg (by simp [hout]),
    if_neg (by simp [isNanF_map_some])]
  rw [sumTakeF_map_some]
  have hstart : period - 1 + 1 = period + 0 := by omega
  have hsum0 : ((inputQ.take period).foldl (· + ·) 0) = sma.smaSum inputQ period 0 := rfl
  refine ⟨_, rfl, ?_, ?_, ?_⟩
  · rw [apply_ite List.length, length_fillTo, sma_loop_length, List.length_set, hout, ite_self]
  · intro j d hj1 hj2
    have hfill : ∀ l : List F, (if cfg.allow_nan = true then fillTo l none (period - 1)
        else l).getD j d = l.getD j d := by
      intro l
      by_cases hc : cfg.allow_nan = true
      · rw [if_pos hc, getD_fillTo, if_neg (by omega)]
      · rw [if_neg hc]
    rw [hfill, hsum0, hstart, sma_loop_getD inputQ period (by omega)]
    simp only [List.length_set, hout]
    by_cases hj3 : period ≤ j
    · rw [if_pos (by omega)]
    · have hjeq : j = period - 1 := by omega
      rw [if_neg (by omega), getD_set, if_pos ⟨hjeq, by omega⟩, hjeq]
      simp [divF, sma.smaOut, show period - 1 + 1 - period = 0 by omega, hsum0]
  · intro j d hj
    have hcl : j < out0.length := by omega
    by_cases hc : cfg.allow_nan = true
    · rw [if_pos hc, getD_fillTo, if_pos ⟨by omega, by
        rw [sma_loop_length, List.length_set]; omega⟩]
      simp [hc]
    · rw [if_neg hc, hsum0, hstart, sma_loop_getD inputQ period (by omega),
        if_neg (by omega), getD_set, if_neg (by omega)]
      simp [hc]

/-! ### Helper lemmas about the A/D, ema and adosc kernels -/

theorem adQ_step (hs ls cs vs : List ℚ) (i : ℕ) (hi : 1 ≤ i) :
    ad.adQ hs ls cs vs i =
      ad.mfmQ (getQ hs i) (getQ ls i) (getQ cs i) * getQ vs i + ad.adQ hs ls cs vs (i - 1) := by
  obtain ⟨j, rfl⟩ : ∃ j, i = j + 1 := ⟨i - 1, by omega⟩
  simp [ad.adQ]

theorem adLine_length (hs ls cs vs : List ℚ) : (ad.adLine hs ls cs vs).length = hs.length := by
  simp [ad.adLine]

theorem getQ_adLine (hs ls cs vs : List ℚ) (i : ℕ) (hi : i < hs.length) :
    getQ (ad.adLine hs ls cs vs) i = ad.adQ hs ls cs vs i := by
  simp [ad.adLine, getQ, List.getD_eq_getElem?_getD, List.getElem?_map, List.getElem?_range hi]

theorem emaOut_step (xs : List ℚ) (p : ℕ) (k : ℚ) (i : ℕ) (hp : 1 ≤ p) (hi : p ≤ i) :
    ema.emaOut xs p k i =
      (getQ xs i - ema.emaOut xs p k (i - 1)) * k + ema.emaOut xs p k (i - 1) := by
  have h1 : i + 1 - p = (i - 1 + 1 - p) + 1 := by omega
  rw [ema.emaOut, h1, ema.emaAux, show p + (i - 1 + 1 - p) = i by omega, ema.emaOut]

/-- Success form of adosc_inc on clean inputs with valid periods: the
guard and both ema period checks pass and the payload is the chained
A/D and ema updates. -/
theorem adosc_inc_ok (cfg : Config) (h l c v pa pfe pse : ℚ) (fast slow : ℕ)
    (h2 : 2 ≤ fast) (hfs : fast < slow) :
    adosc.adosc_inc cfg (some h) (some l) (some c) (some v) (some pa) (some pfe) (some pse)
        fast slow =
      .ok (some (((ad.mfmQ h l c * v + pa - pfe) * ema.kDef fast + pfe) -
            ((ad.mfmQ h l c * v + pa - pse) * ema.kDef slow + pse)),
          some (ad.mfmQ h l c * v + pa),
          some ((ad.mfmQ h l c * v + pa - pfe) * ema.kDef fast + pfe),
          some ((ad.mfmQ h l c * v + pa - pse) * ema.kDef slow + pse)) := by
  simp [adosc.adosc_inc, ad.ad_inc, ema.ema_inc, ad.ad_inc_raw, ad.mfmF, fmaF, isNanF,
    addF, subF, mulF, show ¬ (fast = 0 ∨ slow = 0 ∨ slow ≤ fast) by omega,
    show ¬ fast < 2 by omega, show ¬ slow < 2 by omega]

/-- Candle ordering invariant of a single ha_inc payload. -/
theorem ha_inc_inv (o h l c po pc : ℚ) :
    (ha.ha_inc o h l c po pc).2.2.1 ≤
        min (ha.ha_inc o h l c po pc).1 (ha.ha_inc o h l c po pc).2.2.2 ∧
      max (ha.ha_inc o h l c po pc).1 (ha.ha_inc o h l c po pc).2.2.2 ≤
        (ha.ha_inc o h l c po pc).2.1 := by
  simp only [ha.ha_inc]
  constructor
  · exact le_min (le_trans (min_le_left _ _) (min_le_right _ _)) (min_le_right _ _)
  · exact max_le (le_trans (le_max_right h _) (le_max_left _ _)) (le_max_right _ _)

/-! ### Claim theorems -/

/-- C2 counterexample: on the spec's boundary input the published
multiplier formula gives a first accumulation output of 0, not the
-100.0 the claim asserts. -/
theorem c2_ad_first_output_not_minus_100 :
    ad.adQ [10, 12, 15] [8, 9, 11] [9, 11, 13] [100, 150, 200] 0 = 0 ∧
    (0 : ℚ) ≠ -100 := by
  norm_num [ad.adQ, ad.mfmQ, getQ]

/-- C2 (amended): the accumulation batch on input high 10,12,15, low
8,9,11, close 9,11,13, volume 100,150,200 yields outputs 0, 50, 50 by
the published Money Flow Multiplier formula, and the incremental kernel
ad_inc_raw seeded with the first output reproduces outputs 2 and 3. -/
theorem c2_ad_boundary_scenario :
    ad.adQ [10, 12, 15] [8, 9, 11] [9, 11, 13] [100, 150, 200] 0 = 0 ∧
    ad.adQ [10, 12, 15] [8, 9, 11] [9, 11, 13] [100, 150, 200] 1 = 50 ∧
    ad.adQ [10, 12, 15] [8, 9, 11] [9, 11, 13] [100, 150, 200] 2 = 50 ∧
    ad.ad_inc_raw (some 12) (some 9) (some 11) (some 150) (some 0) = some 50 ∧
    ad.ad_inc_raw (some 15) (some 11) (some 13) (some 200) (some 50) = some 50 := by
  norm_num [ad.adQ, ad.mfmQ, ad.ad_inc_raw, ad.mfmF, fmaF, getQ]

/-- C3 counterexample: the rocp lookback resolver returns the period
itself, not period - 1, already at period 14. -/
theorem c3_rocp_lookback_not_period_minus_one :
    rocp.lookback ⟨true, true, true⟩ 14 = .ok 14 ∧
    (Except.ok 14 : Except KandError ℕ) ≠ .ok 13 := by decide

/-- C3 (amended): the sma, wma and correl lookback resolvers return
period - 1 for every valid period, while the rocp resolver returns the
period itself. -/
theorem c3_single_period_lookbacks (cfg : Config) (p : ℕ) :
    (2 ≤ p → sma.lookback cfg p = .ok (p - 1) ∧ wma.lookback cfg p = .ok (p - 1) ∧
      correl.lookback cfg p = .ok (p - 1)) ∧
    (1 ≤ p → rocp.lookback cfg p = .ok p) := by
  constructor
  · intro h
    have h2 : ¬ (p < 2) := by omega
    simp [sma.lookback, wma.lookback, correl.lookback, h2]
  · intro h
    have h1 : ¬ (p < 1) := by omega
    simp [rocp.lookback, h1]

theorem c3_single_period_lookbacks_witness :
    (2 ≤ 14 ∧ (sma.lookback ⟨true, true, true⟩ 14 = .ok 13 ∧
      wma.lookback ⟨true, true, true⟩ 14 = .ok 13 ∧
      correl.lookback ⟨true, true, true⟩ 14 = .ok 13)) ∧
    (1 ≤ 14 ∧ rocp.lookback ⟨true, true, true⟩ 14 = .ok 14) :=
  ⟨⟨by decide, (c3_single_period_lookbacks ⟨true, true, true⟩ 14).1 (by decide)⟩,
    ⟨by decide, (c3_single_period_lookbacks ⟨true, true, true⟩ 14).2 (by decide)⟩⟩

/-- C4: for valid period pairs the adosc lookback equals the lookback
of its slow ema sub-indicator. -/
theorem c4_adosc_lookback_is_slow_ema_lookback (cfg : Config) (fast slow : ℕ)
    (h2 : 2 ≤ fast) (hfs : fast < slow) :
    adosc.lookback cfg fast slow = ema.lookback cfg slow := by
  have hg : ¬ (fast < 2 ∨ slow < 2 ∨ slow ≤ fast) := by omega
  rw [adosc.lookback, if_neg (fun hh => hg hh.2)]

theorem c4_adosc_lookback_is_slow_ema_lookback_witness :
    2 ≤ 3 ∧ 3 < 10 ∧
      adosc.lookback ⟨true, true, true⟩ 3 10 = ema.lookback ⟨true, true, true⟩ 10 :=
  ⟨by decide, by decide,
    c4_adosc_lookback_is_slow_ema_lookback ⟨true, true, true⟩ 3 10 (by decide) (by decide)⟩

/-- C5: a zero high-low range yields the sentinel multiplier 0 in the
A/D formula, so the incremental step returns the previous A/D value
unchanged and the batch accumulation is constant across such a sample
(and starts at 0 when the first sample has zero range); the division by
the range is guarded and never executed with a zero denominator. -/
theorem c5_zero_range_sentinel (h l c v prev : ℚ) (hs ls cs vs : List ℚ) (i : ℕ)
    (hzero : h = l) :
    (ad.mfmQ h l c = 0 ∧
      ad.ad_inc_raw (some h) (some l) (some c) (some v) (some prev) = some prev) ∧
    (getQ hs (i + 1) = getQ ls (i + 1) →
      ad.adQ hs ls cs vs (i + 1) = ad.adQ hs ls cs vs i) ∧
    (getQ hs 0 = getQ ls 0 → ad.adQ hs ls cs vs 0 = 0) := by
  have hmfm : ∀ a c' : ℚ, ad.mfmQ a a c' = 0 := by
    intro a c'
    simp [ad.mfmQ]
  refine ⟨⟨by rw [hzero]; exact hmfm l c, ?_⟩, ?_, ?_⟩
  · subst hzero
    simp [ad.ad_inc_raw, ad.mfmF, fmaF, hmfm]
  · intro hz
    rw [adQ_step hs ls cs vs (i + 1) (by omega), hz, hmfm]
    simp
  · intro hz
    rw [ad.adQ, hz, hmfm]
    simp

theorem c5_zero_range_sentinel_witness :
    ((7 : ℚ) = 7 ∧
      (ad.mfmQ 7 7 5 = 0 ∧
        ad.ad_inc_raw (some 7) (some 7) (some 5) (some 100) (some 42) = some 42)) ∧
    (getQ [3, 9] 1 = getQ [2, 9] 1 →
      ad.adQ [3, 9] [2, 9] [5, 5] [10, 10] 1 = ad.adQ [3, 9] [2, 9] [5, 5] [10, 10] 0) :=
  ⟨⟨rfl, (c5_zero_range_sentinel 7 7 5 100 42 [3, 9] [2, 9] [5, 5] [10, 10] 0 rfl).1⟩,
    (c5_zero_range_sentinel 7 7 5 100 42 [3, 9] [2, 9] [5, 5] [10, 10] 0 rfl).2.1⟩

/-- C10: every Heikin-Ashi candle produced by ha_inc, and hence every
candle the batch kernel writes at an index of 1 or more, has its low at
or below both the candle open and close and its high at or above both,
even for unordered raw inputs, because the high and low are max and min
over the raw extreme, the candle open and the candle close. -/
theorem c10_ha_candle_ordering (o h l c po pc : ℚ) (os hs ls cs : List ℚ) (i : ℕ) :
    ((ha.ha_inc o h l c po pc).2.2.1 ≤
        min (ha.ha_inc o h l c po pc).1 (ha.ha_inc o h l c po pc).2.2.2 ∧
      max (ha.ha_inc o h l c po pc).1 (ha.ha_inc o h l c po pc).2.2.2 ≤
        (ha.ha_inc o h l c po pc).2.1) ∧
    ((ha.haOut os hs ls cs (i + 1)).2.2.1 ≤
        min (ha.haOut os hs ls cs (i + 1)).1 (ha.haOut os hs ls cs (i + 1)).2.2.2 ∧
      max (ha.haOut os hs ls cs (i + 1)).1 (ha.haOut os hs ls cs (i + 1)).2.2.2 ≤
        (ha.haOut os hs ls cs (i + 1)).2.1) := by
  exact ⟨ha_inc_inv o h l c po pc, by rw [ha.haOut]; exact ha_inc_inv _ _ _ _ _ _⟩

/-- C7: with checks enabled, an empty input yields InvalidData before
any length-mismatch or NaN check can fire (for every output buffer,
matching or not), and mismatched array lengths yield LengthMismatch
even when the data contains NaN, because the length check precedes the
NaN scan; shown for the sma and correl batch kernels. -/
theorem c7_validation_ordering (cfg : Config) (input out0 in0 in1 : List F) (period : ℕ)
    (bufs0 : CorrelBufs) (hc : cfg.check = true) (h2 : 2 ≤ period) :
    (sma.sma cfg [] period out0 = .error .InvalidData) ∧
    (input.length ≠ 0 → period - 1 < input.length → out0.length ≠ input.length →
      input.any isNanF = true → cfg.check_nan = true →
      sma.sma cfg input period out0 = .error .LengthMismatch) ∧
    (correl.correl cfg [] in1 period bufs0 = .error .InvalidData) ∧
    (in0.length ≠ 0 → period - 1 < in0.length → in1.length ≠ in0.length →
      ((List.range in0.length).any
        (fun i => isNanF (getF in0 i) || isNanF (getF in1 i))) = true →
      cfg.check_nan = true →
      correl.correl cfg in0 in1 period bufs0 = .error .LengthMismatch) := by
  have hlb : sma.lookback cfg period = .ok (period - 1) := by
    simp [sma.lookback, show ¬ (period < 2) by omega]
  have hlbc : correl.lookback cfg period = .ok (period - 1) := by
    simp [correl.lookback, show ¬ (period < 2) by omega]
  refine ⟨?_, ?_, ?_, ?_⟩
  · simp [sma.sma, hlb, hc]
  · intro h0 hsuff hmm _ _
    simp [sma.sma, hlb, hc, h0, hmm, show ¬ (input.length ≤ period - 1) by omega]
  · simp [correl.correl, hlbc, hc]
  · intro h0 hsuff hmm _ _
    simp [correl.correl, hlbc, hc, h0, hmm, show ¬ (in0.length ≤ period - 1) by omega]

theorem c7_validation_ordering_witness :
    ((true : Bool) = true ∧ 2 ≤ 2) ∧
    (sma.sma ⟨true, true, true⟩ [] 2 [some 0] = .error .InvalidData) ∧
    (sma.sma ⟨true, true, true⟩ [some 1, none] 2 [some 0] = .error .LengthMismatch) ∧
    (correl.correl ⟨true, true, true⟩ [] [some 1] 2
      ⟨[some (0, 0)], [some 0], [some 0], [some 0], [some 0], [some 0]⟩ =
      .error .InvalidData) ∧
    (correl.correl ⟨true, true, true⟩ [some 1, none] [some 1] 2
      ⟨[some (0, 0)], [some 0], [some 0], [some 0], [some 0], [some 0]⟩ =
      .error .LengthMismatch) :=
  ⟨⟨rfl, by decide⟩,
    (c7_validation_ordering ⟨true, true, true⟩ [some 1, none] [some 0] [some 1, none] [some 1] 2
      ⟨[some (0, 0)], [some 0], [some 0], [some 0], [some 0], [some 0]⟩ rfl (by decide)).1,
    (c7_validation_ordering ⟨true, true, true⟩ [some 1, none] [some 0] [some 1, none] [some 1] 2
      ⟨[some (0, 0)], [some 0], [some 0], [some 0], [some 0], [some 0]⟩ rfl (by decide)).2.1
      (by decide) (by decide) (by decide) (by decide) rfl,
    (c7_validation_ordering ⟨true, true, true⟩ [some 1, none] [some 0] [some 1, none] [some 1] 2
      ⟨[some (0, 0)], [some 0], [some 0], [some 0], [some 0], [some 0]⟩ rfl (by decide)).2.2.1,
    (c7_validation_ordering ⟨true, true, true⟩ [some 1, none] [some 0] [some 1, none] [some 1] 2
      ⟨[some (0, 0)], [some 0], [some 0], [some 0], [some 0], [some 0]⟩ rfl (by decide)).2.2.2
      (by decide) (by decide) (by decide) (by decide) rfl⟩

/-- C9 counterexample: with checks enabled the incremental kernel
adosc_inc rejects the pair fast 1, slow 2 with InvalidParameter (the
fast ema sub-kernel requires a period of at least 2), although the pair
passes the guard fast = 0 or slow = 0 or fast at or above slow; the
claim instead asserts this call returns Ok. -/
theorem c9_adosc_inc_rejects_fast_one :
    adosc.adosc_inc ⟨true, true, true⟩ (some 10) (some 8) (some 9) (some 100) (some 0) (some 0)
      (some 0) 1 2 = .error .InvalidParameter ∧
    ¬ (1 = 0 ∨ 2 = 0 ∨ 2 ≤ 1) := by decide

/-- C9 (amended): with checks enabled, adosc_inc on clean inputs
returns InvalidParameter exactly when fast is below 2 or slow is at or
below fast, the same parameter domain the batch lookback enforces; the
guard written in adosc_inc itself only rejects a zero period or fast at
or above slow, and the additional rejection of fast 1 comes from the
fast ema sub-kernel, so no parameter pair is accepted incrementally but
rejected by the batch path. -/
theorem c9_adosc_inc_parameter_domain (cfg : Config) (h l c v pa pfe pse : ℚ)
    (fast slow : ℕ) (hc : cfg.check = true) :
    (adosc.adosc_inc cfg (some h) (some l) (some c) (some v) (some pa) (some pfe) (some pse)
        fast slow = .error .InvalidParameter ↔ fast < 2 ∨ slow ≤ fast) ∧
    (adosc.lookback cfg fast slow = .error .InvalidParameter ↔ fast < 2 ∨ slow ≤ fast) := by
  constructor
  · by_cases hg : fast = 0 ∨ slow = 0 ∨ slow ≤ fast
    · rw [adosc.adosc_inc, if_pos ⟨hc, hg⟩]
      exact ⟨fun _ => by omega, fun _ => rfl⟩
    · by_cases hf2 : fast < 2
      · have hres : adosc.adosc_inc cfg (some h) (some l) (some c) (some v) (some pa) (some pfe)
            (some pse) fast slow = .error .InvalidParameter := by
          simp [adosc.adosc_inc, ad.ad_inc, ema.ema_inc, ad.ad_inc_raw, ad.mfmF, fmaF, isNanF,
            hc, hg, hf2]
        rw [hres]
        exact ⟨fun _ => Or.inl hf2, fun _ => rfl⟩
      · rw [adosc_inc_ok cfg h l c v pa pfe pse fast slow (by omega) (by omega)]
        exact ⟨fun hcontra => absurd hcontra (by simp), fun hcase => absurd hcase (by omega)⟩
  · by_cases hg2 : fast < 2 ∨ slow < 2 ∨ slow ≤ fast
    · rw [adosc.lookback, if_pos ⟨hc, hg2⟩]
      exact ⟨fun _ => by omega, fun _ => rfl⟩
    · rw [adosc.lookback, ema.lookback, if_neg (fun hh => hg2 hh.2),
        if_neg (fun hh => absurd hh.2 (by omega))]
      exact ⟨fun hcontra => absurd hcontra (by simp), fun hcase => absurd hcase (by omega)⟩

theorem c9_adosc_inc_parameter_domain_witness :
    ((true : Bool) = true ∧
      (adosc.adosc_inc ⟨true, true, true⟩ (some 10) (some 8) (some 9) (some 100) (some 0)
          (some 0) (some 0) 1 2 = .error .InvalidParameter ↔ 1 < 2 ∨ 2 ≤ 1)) ∧
    (adosc.lookback ⟨true, true, true⟩ 1 2 = .error .InvalidParameter ↔ 1 < 2 ∨ 2 ≤ 1) :=
  ⟨⟨rfl, (c9_adosc_inc_parameter_domain ⟨true, true, true⟩ 10 8 9 100 0 0 0 1 2 rfl).1⟩,
    (c9_adosc_inc_parameter_domain ⟨true, true, true⟩ 10 8 9 100 0 0 0 1 2 rfl).2⟩

/-- C1: batch and incremental kernels agree under exact arithmetic.
For sma, a validated batch call succeeds and sma_inc applied to the
batch output at i - 1 together with the entering and leaving samples
reproduces the batch output at i.  For the accumulation line, ad_inc
applied to the batch value at i - 1 and the raw samples at i reproduces
the batch value at i.  For the composite oscillator, adosc_inc applied
to the three-component batch state at i - 1 (accumulation value, fast
ema, slow ema) and the raw samples at i reproduces all four batch
outputs at i. -/
theorem c1_batch_incremental_equivalence :
    (∀ (cfg : Config) (inputQ : List ℚ) (period : ℕ) (out0 : List F) (i : ℕ),
      2 ≤ period → period ≤ i → i < inputQ.length → out0.length = inputQ.length →
      ∃ out, sma.sma cfg (inputQ.map some) period out0 = .ok out ∧
        sma.sma_inc cfg (out.getD (i - 1) none) (some (getQ inputQ i))
          (some (getQ inputQ (i - period))) period = .ok (out.getD i none)) ∧
    (∀ (cfg : Config) (hs ls cs vs : List ℚ) (i : ℕ), 1 ≤ i →
      ad.ad_inc cfg (some (getQ hs i)) (some (getQ ls i)) (some (getQ cs i))
        (some (getQ vs i)) (some (ad.adQ hs ls cs vs (i - 1))) =
        .ok (some (ad.adQ hs ls cs vs i))) ∧
    (∀ (cfg : Config) (hs ls cs vs : List ℚ) (fast slow i : ℕ),
      2 ≤ fast → fast < slow → slow ≤ i → i < hs.length →
      adosc.adosc_inc cfg (some (getQ hs i)) (some (getQ ls i)) (some (getQ cs i))
        (some (getQ vs i)) (some (ad.adQ hs ls cs vs (i - 1)))
        (some (ema.emaOut (ad.adLine hs ls cs vs) fast (ema.kDef fast) (i - 1)))
        (some (ema.emaOut (ad.adLine hs ls cs vs) slow (ema.kDef slow) (i - 1))) fast slow =
        .ok (some (adosc.adoscQ hs ls cs vs fast slow i), some (ad.adQ hs ls cs vs i),
          some (ema.emaOut (ad.adLine hs ls cs vs) fast (ema.kDef fast) i),
          some (ema.emaOut (ad.adLine hs ls cs vs) slow (ema.kDef slow) i))) := by
  refine ⟨?_, ?_, ?_⟩
  · intro cfg inputQ period out0 i h2 hpi hilen hout
    obtain ⟨out, heq, hlen, hvalid, hpre⟩ := sma_spec cfg inputQ period out0 h2 (by omega) hout
    refine ⟨out, heq, ?_⟩
    rw [hvalid (i - 1) none (by omega) (by omega), hvalid i none (by omega) hilen]
    rw [sma.sma_inc, if_neg (fun hh => absurd hh.2 (by omega)), if_neg (by simp [isNanF])]
    simp only [addF, subF, divF]
    refine congrArg Except.ok (congrArg some ?_)
    have hpq : ((period : ℚ)) ≠ 0 := by
      have : (0 : ℚ) < (period : ℚ) := by exact_mod_cast (by omega : 0 < period)
      exact ne_of_gt this
    rw [sma.smaOut, sma.smaOut, show i - 1 + 1 - period = i - period by omega,
      show i + 1 - period = (i - period) + 1 by omega, sma.smaSum,
      show period + (i - period) = i by omega]
    field_simp
    ring
  · intro cfg hs ls cs vs i hi
    rw [ad.ad_inc, if_neg (by simp [isNanF]), adQ_step hs ls cs vs i hi]
    rfl
  · intro cfg hs ls cs vs fast slow i h2 hfs hsi hilen
    rw [adosc_inc_ok cfg _ _ _ _ _ _ _ fast slow h2 hfs]
    have hAd : ad.mfmQ (getQ hs i) (getQ ls i) (getQ cs i) * getQ vs i +
        ad.adQ hs ls cs vs (i - 1) = ad.adQ hs ls cs vs i :=
      (adQ_step hs ls cs vs i (by omega)).symm
    have hF : (ad.adQ hs ls cs vs i -
          ema.emaOut (ad.adLine hs ls cs vs) fast (ema.kDef fast) (i - 1)) * ema.kDef fast +
          ema.emaOut (ad.adLine hs ls cs vs) fast (ema.kDef fast) (i - 1) =
        ema.emaOut (ad.adLine hs ls cs vs) fast (ema.kDef fast) i := by
      rw [emaOut_step (ad.adLine hs ls cs vs) fast (ema.kDef fast) i (by omega) (by omega),
        getQ_adLine hs ls cs vs i hilen]
    have hS : (ad.adQ hs ls cs vs i -
          ema.emaOut (ad.adLine hs ls cs vs) slow (ema.kDef slow) (i - 1)) * ema.kDef slow +
          ema.emaOut (ad.adLine hs ls cs vs) slow (ema.kDef slow) (i - 1) =
        ema.emaOut (ad.adLine hs ls cs vs) slow (ema.kDef slow) i := by
      rw [emaOut_step (ad.adLine hs ls cs vs) slow (ema.kDef slow) i (by omega) (by omega),
        getQ_adLine hs ls cs vs i hilen]
    rw [hAd, hF, hS]
    rfl

theorem c1_batch_incremental_equivalence_witness :
    (2 ≤ 2 ∧ 2 ≤ 2 ∧ 2 < 3 ∧
      (∃ out, sma.sma ⟨true, true, false⟩ ([1, 2, 3].map some) 2 [some 7, some 7, some 7] =
          .ok out ∧
        sma.sma_inc ⟨true, true, false⟩ (out.getD 1 none) (some (getQ [1, 2, 3] 2))
          (some (getQ [1, 2, 3] 0)) 2 = .ok (out.getD 2 none))) ∧
    (1 ≤ 1 ∧
      ad.ad_inc ⟨true, true, false⟩ (some (getQ [10, 12] 1)) (some (getQ [8, 9] 1))
        (some (getQ [9, 11] 1)) (some (getQ [100, 150] 1))
        (some (ad.adQ [10, 12] [8, 9] [9, 11] [100, 150] 0)) =
        .ok (some (ad.adQ [10, 12] [8, 9] [9, 11] [100, 150] 1))) ∧
    (2 ≤ 2 ∧ 2 < 3 ∧ 3 ≤ 3 ∧ 3 < 4 ∧
      adosc.adosc_inc ⟨true, true, false⟩ (some (getQ [10, 12, 15, 14] 3))
        (some (getQ [8, 9, 11, 10] 3)) (some (getQ [9, 11, 13, 12] 3))
        (some (getQ [100, 150, 200, 120] 3))
        (some (ad.adQ [10, 12, 15, 14] [8, 9, 11, 10] [9, 11, 13, 12] [100, 150, 200, 120] 2))
        (some (ema.emaOut (ad.adLine [10, 12, 15, 14] [8, 9, 11, 10] [9, 11, 13, 12]
          [100, 150, 200, 120]) 2 (ema.kDef 2) 2))
        (some (ema.emaOut (ad.adLine [10, 12, 15, 14] [8, 9, 11, 10] [9, 11, 13, 12]
          [100, 150, 200, 120]) 3 (ema.kDef 3) 2)) 2 3 =
        .ok (some (adosc.adoscQ [10, 12, 15, 14] [8, 9, 11, 10] [9, 11, 13, 12]
            [100, 150, 200, 120] 2 3 3),
          some (ad.adQ [10, 12, 15, 14] [8, 9, 11, 10] [9, 11, 13, 12] [100, 150, 200, 120] 3),
          some (ema.emaOut (ad.adLine [10, 12, 15, 14] [8, 9, 11, 10] [9, 11, 13, 12]
            [100, 150, 200, 120]) 2 (ema.kDef 2) 3),
          some (ema.emaOut (ad.adLine [10, 12, 15, 14] [8, 9, 11, 10] [9, 11, 13, 12]
            [100, 150, 200, 120]) 3 (ema.kDef 3) 3))) :=
  ⟨⟨by decide, by decide, by decide,
      c1_batch_incremental_equivalence.1 ⟨true, true, false⟩ [1, 2, 3] 2
        [some 7, some 7, some 7] 2 (by decide) (by decide) (by decide) (by decide)⟩,
    ⟨by decide,
      c1_batch_incremental_equivalence.2.1 ⟨true, true, false⟩ [10, 12] [8, 9] [9, 11]
        [100, 150] 1 (by decide)⟩,
    ⟨by decide, by decide, by decide, by decide,
      c1_batch_incremental_equivalence.2.2 ⟨true, true, false⟩ [10, 12, 15, 14] [8, 9, 11, 10]
        [9, 11, 13, 12] [100, 150, 200, 120] 2 3 3 (by decide) (by decide) (by decide)
        (by decide)⟩⟩

/-! ### Lemmas about the correl and rocp batch loops -/

theorem rocp_loop_length (input : List F) (period : ℕ) :
    ∀ fuel i out, (rocp.rocp_loop input period i fuel out).length = out.length := by
  intro fuel
  induction fuel with
  | zero => intro i out; rfl
  | succ fuel ih => intro i out; rw [rocp.rocp_loop, ih]; simp

theorem correl_loop_length (in0 in1 : List F) (n : ℚ) (period : ℕ) :
    ∀ fuel i s0 s1 s0q s1q s01 bufs,
      (correl.correl_loop in0 in1 n period i fuel s0 s1 s0q s1q s01 bufs).correl.length =
        bufs.correl.length := by
  intro fuel
  induction fuel with
  | zero => intro i s0 s1 s0q s1q s01 bufs; rfl
  | succ fuel ih =>
      intro i s0 s1 s0q s1q s01 bufs
      rw [correl.correl_loop, ih]
      simp

/-- A correlation entry whose first series has the sums of a
zero-variance window is NaN: the squared denominator is zero (or NaN),
never positive. -/
theorem correlEntryF_const (n c : ℚ) (s1 s1q s01 : F) :
    correl.correlEntryF n (some (n * c)) s1 (some (n * c * c)) s1q s01 = none := by
  have hz : ∀ X : ℚ, (n * (n * c * c) - n * c * (n * c)) * X = 0 := fun X => by ring
  cases s1 <;> cases s1q <;> cases s01 <;>
    simp [correl.correlEntryF, correl.correlEntryQ, hz]

theorem correlInit_const (in0 in1 : List F) (c : ℚ) (len : ℕ)
    (hconst : ∀ j, j < len → getF in0 j = some c) :
    ∀ k, k ≤ len → (correl.correlInit in0 in1 k).1 = some ((k : ℚ) * c) ∧
      (correl.correlInit in0 in1 k).2.2.1 = some ((k : ℚ) * c * c) := by
  intro k
  induction k with
  | zero => intro _; constructor <;> simp [correl.correlInit]
  | succ k ih =>
      intro hk
      obtain ⟨h1, h2⟩ := ih (by omega)
      rw [correl.correlInit]
      rw [h1, h2, hconst k (by omega)]
      constructor
      · simp only [addF]
        refine congrArg some ?_
        push_cast
        ring
      · simp only [addF, mulF]
        refine congrArg some ?_
        push_cast
        ring

/-- Every entry the correl sliding loop writes for a constant first
series is NaN, and entries below the loop start are untouched. -/
theorem correl_loop_const (in0 in1 : List F) (n c : ℚ) (period len : ℕ)
    (hconst : ∀ j, j < len → getF in0 j = some c) :
    ∀ fuel i s0 s1 s0q s1q s01 bufs, period ≤ i → i + fuel ≤ len →
      s0 = some (n * c) → s0q = some (n * c * c) →
      ∀ j d, (correl.correl_loop in0 in1 n period i fuel s0 s1 s0q s1q s01 bufs).correl.getD j d =
        if i ≤ j ∧ j < i + fuel ∧ j < bufs.correl.length then none
        else bufs.correl.getD j d := by
  intro fuel
  induction fuel with
  | zero =>
      intro i s0 s1 s0q s1q s01 bufs _ _ _ _ j d
      rw [correl.correl_loop, if_neg (by omega)]
  | succ fuel ih =>
      intro i s0 s1 s0q s1q s01 bufs hpi hlen hs0 hs0q j d
      subst hs0 hs0q
      rw [correl.correl_loop]
      simp only [hconst (i - period) (by omega), hconst i (by omega)]
      have e1 : addF (subF (some (n * c)) (some c)) (some c) = some (n * c) := by
        simp only [addF, subF]
        refine congrArg some ?_
        ring
      have e2 : fmaF (some c) (some c) (fmaF (some c) (negF (some c)) (some (n * c * c))) =
          some (n * c * c) := by
        simp only [fmaF, negF]
        refine congrArg some ?_
        ring
      rw [e1, e2, ih (i + 1) _ _ _ _ _ _ (by omega) (by omega) rfl rfl]
      simp only [correlEntryF_const, List.length_set]
      by_cases hj : j = i
      · subst hj
        by_cases hlenj : j < bufs.correl.length
        · rw [if_neg (by omega), if_pos (by omega), getD_set, if_pos ⟨rfl, hlenj⟩]
        · rw [if_neg (by omega), if_neg (by simp [hlenj]), getD_set,
            if_neg (by simp [hlenj])]
      · by_cases hin : i + 1 ≤ j ∧ j < i + 1 + fuel ∧ j < bufs.correl.length
        · rw [if_pos hin, if_pos (by omega)]
        · rw [if_neg hin, getD_set, if_neg (fun hh => hj hh.1), if_neg (by omega)]

/-- Reduction of a validated correl batch call: with consistent lengths
and a NaN-free scan the kernel returns the buffers produced by the
initial-window write, the sliding loop and the prefix fill. -/
theorem correl_ok (cfg : Config) (in0 in1 : List F) (period : ℕ) (bufs0 : CorrelBufs)
    (h2 : 2 ≤ period) (hple : period ≤ in0.length) (hlen1 : in1.length = in0.length)
    (hb1 : bufs0.correl.length = in0.length) (hb2 : bufs0.sum0.length = in0.length)
    (hb3 : bufs0.sum1.length = in0.length) (hb4 : bufs0.sum0sq.length = in0.length)
    (hb5 : bufs0.sum1sq.length = in0.length) (hb6 : bufs0.sum01.length = in0.length)
    (hscan : ((List.range in0.length).any
      (fun i => isNanF (getF in0 i) || isNanF (getF in1 i))) = false) :
    ∃ B, correl.correl cfg in0 in1 period bufs0 = .ok B ∧
      B.correl = fillTo (correl.correl_loop in0 in1 ((period : ℚ)) period period
          (in0.length - period) (correl.correlInit in0 in1 period).1
          (correl.correlInit in0 in1 period).2.1 (correl.correlInit in0 in1 period).2.2.1
          (correl.correlInit in0 in1 period).2.2.2.1 (correl.correlInit in0 in1 period).2.2.2.2
          { correl := bufs0.correl.set (period - 1) (correl.correlEntryF ((period : ℚ))
              (correl.correlInit in0 in1 period).1 (correl.correlInit in0 in1 period).2.1
              (correl.correlInit in0 in1 period).2.2.1
              (correl.correlInit in0 in1 period).2.2.2.1
              (correl.correlInit in0 in1 period).2.2.2.2),
            sum0 := bufs0.sum0.set (period - 1) (correl.correlInit in0 in1 period).1,
            sum1 := bufs0.sum1.set (period - 1) (correl.correlInit in0 in1 period).2.1,
            sum0sq := bufs0.sum0sq.set (period - 1) (correl.correlInit in0 in1 period).2.2.1,
            sum1sq := bufs0.sum1sq.set (period - 1) (correl.correlInit in0 in1 period).2.2.2.1,
            sum01 := bufs0.sum01.set (period - 1)
              (correl.correlInit in0 in1 period).2.2.2.2 }).correl
        none (period - 1) := by
  have hlbc : correl.lookback cfg period = .ok (period - 1) := by
    simp [correl.lookback, show ¬ (period < 2) by omega]
  rw [correl.correl, hlbc]
  simp only []
  rw [if_neg (fun hh => absurd hh.2 (by omega)), if_neg (fun hh => absurd hh.2 (by omega)),
    if_neg (fun hh => hh.2 ⟨hlen1, hb1, hb2, hb3, hb4, hb5, hb6⟩),
    if_neg (fun hh => absurd hh.2 (by omega)),
    if_neg (fun hh => by rw [hscan] at hh; exact Bool.noConfusion hh.2)]
  exact ⟨_, rfl, rfl⟩

theorem range_scan_map_some (in0Q in1Q : List ℚ) (len : ℕ) :
    ((List.range len).any
      (fun i => isNanF (getF (in0Q.map some) i) || isNanF (getF (in1Q.map some) i))) = false := by
  rw [List.any_eq_false]
  intro i _
  rw [getF_map_some, getF_map_some]
  simp [isNanF]

/-- C6: windows with a non-positive Pearson denominator yield a NaN
correlation rather than a division by zero, in the batch kernel and the
incremental kernel alike.  A constant first series gives the batch
kernel a NaN at every valid index, and an incremental update whose new
sums make the product of the two variance terms non-positive returns a
NaN correlation component. -/
theorem c6_zero_variance_nan :
    (∀ (cfg : Config) (len period : ℕ) (c : ℚ) (in1Q : List ℚ) (bufs0 : CorrelBufs),
      2 ≤ period → period ≤ len → in1Q.length = len →
      bufs0.correl.length = len → bufs0.sum0.length = len → bufs0.sum1.length = len →
      bufs0.sum0sq.length = len → bufs0.sum1sq.length = len → bufs0.sum01.length = len →
      ∃ B, correl.correl cfg (List.replicate len (some c)) (in1Q.map some) period bufs0 =
          .ok B ∧ ∀ j d, period - 1 ≤ j → j < len → B.correl.getD j d = none) ∧
    (∀ (cfg : Config) (pp : ℕ) (n0 n1 o0 o1 ps0 ps1 ps0q ps1q ps01 : ℚ), 2 ≤ pp →
      ((pp : ℚ) * (n0 * n0 - o0 * o0 + ps0q) - (ps0 - o0 + n0) * (ps0 - o0 + n0)) *
        ((pp : ℚ) * (n1 * n1 - o1 * o1 + ps1q) - (ps1 - o1 + n1) * (ps1 - o1 + n1)) ≤ 0 →
      ∃ r, correl.correl_inc cfg (some n0) (some n1) (some o0) (some o1) (some ps0) (some ps1)
          (some ps0q) (some ps1q) (some ps01) pp = .ok r ∧ r.1 = none) := by
  constructor
  · intro cfg len period c in1Q bufs0 h2 hple hlen1 hb1 hb2 hb3 hb4 hb5 hb6
    have hL0 : (List.replicate len (some c) : List F).length = len := List.length_replicate len _
    have hconst : ∀ j, j < len → getF (List.replicate len (some c)) j = some c :=
      fun j hj => getF_replicate len c j hj
    have hscan : ((List.range (List.replicate len (some c) : List F).length).any
        (fun i => isNanF (getF (List.replicate len (some c)) i) ||
          isNanF (getF (in1Q.map some) i))) = false := by
      rw [hL0, List.any_eq_false]
      intro i hi
      rw [List.mem_range] at hi
      rw [hconst i hi, getF_map_some]
      simp [isNanF]
    obtain ⟨B, heq, hBc⟩ := correl_ok cfg (List.replicate len (some c)) (in1Q.map some) period
      bufs0 h2 (by rw [hL0]; exact hple) (by simp [hlen1, hL0]) (by rw [hL0]; exact hb1)
      (by rw [hL0]; exact hb2) (by rw [hL0]; exact hb3) (by rw [hL0]; exact hb4)
      (by rw [hL0]; exact hb5) (by rw [hL0]; exact hb6) hscan
    refine ⟨B, heq, ?_⟩
    intro j d hj1 hj2
    obtain ⟨hI1, hI2⟩ := correlInit_const (List.replicate len (some c)) (in1Q.map some) c len
      hconst period hple
    rw [hBc, getD_fillTo, if_neg (by omega)]
    rw [correl_loop_const (List.replicate len (some c)) (in1Q.map some) ((period : ℚ)) c period
      len hconst _ _ _ _ _ _ _ _ (le_refl period) (by rw [hL0]; omega) hI1 hI2 j d]
    have hblen : (bufs0.correl.set (period - 1) (correl.correlEntryF ((period : ℚ))
        (correl.correlInit (List.replicate len (some c)) (in1Q.map some) period).1
        (correl.correlInit (List.replicate len (some c)) (in1Q.map some) period).2.1
        (correl.correlInit (List.replicate len (some c)) (in1Q.map some) period).2.2.1
        (correl.correlInit (List.replicate len (some c)) (in1Q.map some) period).2.2.2.1
        (correl.correlInit (List.replicate len (some c)) (in1Q.map some) period).2.2.2.2)).length
        = len := by
      rw [List.length_set]
      exact hb1
    by_cases hjp : period ≤ j
    · rw [if_pos ⟨hjp, by rw [hL0]; omega, by rw [hblen]; omega⟩]
    · rw [if_neg (fun hh => hjp hh.1), getD_set, if_pos ⟨by omega, by omega⟩, hI1, hI2,
        correlEntryF_const]
  · intro cfg pp n0 n1 o0 o1 ps0 ps1 ps0q ps1q ps01 hpp hvar
    rw [correl.correl_inc, if_neg (fun hh => absurd hh.2 (by omega)),
      if_neg (by simp [isNanF])]
    refine ⟨_, rfl, ?_⟩
    simp only [addF, subF, fmaF, negF, correl.correlEntryF, correl.correlEntryQ]
    rw [if_neg (not_lt.mpr (by linarith [hvar]))]

theorem c6_zero_variance_nan_witness :
    (2 ≤ 2 ∧ 2 ≤ 3 ∧
      (∃ B, correl.correl ⟨true, true, true⟩ (List.replicate 3 (some 5)) ([1, 2, 3].map some) 2
          ⟨[some (0, 0), some (0, 0), some (0, 0)], [some 0, some 0, some 0],
            [some 0, some 0, some 0], [some 0, some 0, some 0], [some 0, some 0, some 0],
            [some 0, some 0, some 0]⟩ = .ok B ∧
        ∀ j d, 2 - 1 ≤ j → j < 3 → B.correl.getD j d = none)) ∧
    (2 ≤ 2 ∧
      (∃ r, correl.correl_inc ⟨true, true, true⟩ (some 1) (some 2) (some 1) (some 1) (some 2)
          (some 3) (some 2) (some 5) (some 4) 2 = .ok r ∧ r.1 = none)) :=
  ⟨⟨by decide, by decide,
      c6_zero_variance_nan.1 ⟨true, true, true⟩ 3 2 5 [1, 2, 3]
        ⟨[some (0, 0), some (0, 0), some (0, 0)], [some 0, some 0, some 0],
          [some 0, some 0, some 0], [some 0, some 0, some 0], [some 0, some 0, some 0],
          [some 0, some 0, some 0]⟩ (by decide) (by decide) (by decide) (by decide) (by decide)
        (by decide) (by decide) (by decide) (by decide)⟩,
    ⟨by decide,
      c6_zero_variance_nan.2 ⟨true, true, true⟩ 2 1 2 1 1 2 3 2 5 4 (by decide)
        (by norm_num)⟩⟩

/-- C8 counterexample: with NaN-output not configured (allow-nan off),
the rocp batch kernel still overwrites the pre-lookback slot with the
NaN sentinel while the sma batch kernel leaves the caller's initial
contents in place, so the configuration-dependent rule is not one
single policy applied uniformly across kernels, contradicting the
claim. -/
theorem c8_fill_policy_counterexample :
    rocp.rocp ⟨true, false, false⟩ [some 1, some 2, some 3] 1 [some 7, some 7, some 7] =
      .ok [none, some 1, some (1/2)] ∧
    sma.sma ⟨true, false, false⟩ [some 1, some 2, some 3] 2 [some 7, some 7, some 7] =
      .ok [some 7, some (3/2), some (5/2)] ∧
    (none : F) ≠ some 7 := by
  refine ⟨?_, ?_, by simp⟩ <;>
    norm_num [rocp.rocp, rocp.lookback, rocp.rocp_loop, sma.sma, sma.lookback, sma.sma_loop,
      sumTakeF, addF, subF, divF, getF, isNanF, fillTo]

/-- C8 (amended): in a validated batch call the entries before the
lookback index follow a per-kernel rule: sma fills them with NaN
exactly when NaN-output is configured and otherwise leaves the caller's
initial buffer contents, while rocp and correl overwrite them with NaN
unconditionally. -/
theorem c8_fill_policy :
    (∀ (cfg : Config) (inputQ : List ℚ) (period : ℕ) (out0 : List F),
      2 ≤ period → period ≤ inputQ.length → out0.length = inputQ.length →
      ∃ out, sma.sma cfg (inputQ.map some) period out0 = .ok out ∧
        ∀ j d, j < period - 1 →
          out.getD j d = if cfg.allow_nan = true then none else out0.getD j d) ∧
    (∀ (cfg : Config) (inputQ : List ℚ) (period : ℕ) (out0 : List F),
      1 ≤ period → period < inputQ.length → out0.length = inputQ.length →
      ∃ out, rocp.rocp cfg (inputQ.map some) period out0 = .ok out ∧
        ∀ j d, j < period → out.getD j d = none) ∧
    (∀ (cfg : Config) (in0Q in1Q : List ℚ) (period : ℕ) (bufs0 : CorrelBufs),
      2 ≤ period → period ≤ in0Q.length → in1Q.length = in0Q.length →
      bufs0.correl.length = in0Q.length → bufs0.sum0.length = in0Q.length →
      bufs0.sum1.length = in0Q.length → bufs0.sum0sq.length = in0Q.length →
      bufs0.sum1sq.length = in0Q.length → bufs0.sum01.length = in0Q.length →
      ∃ B, correl.correl cfg (in0Q.map some) (in1Q.map some) period bufs0 = .ok B ∧
        ∀ j d, j < period - 1 → B.correl.getD j d = none) := by
  refine ⟨?_, ?_, ?_⟩
  · intro cfg inputQ period out0 h2 hple hout
    obtain ⟨out, heq, hlen, hvalid, hpre⟩ := sma_spec cfg inputQ period out0 h2 hple hout
    exact ⟨out, heq, hpre⟩
  · intro cfg inputQ period out0 h1 hple hout
    have hlb : rocp.lookback cfg period = .ok period := by
      simp [rocp.lookback, show ¬ (period < 1) by omega]
    rw [rocp.rocp, hlb]
    simp only [List.length_map]
    rw [if_neg (fun hh => absurd hh.2 (by omega)), if_neg (fun hh => absurd hh.2 (by omega)),
      if_neg (fun hh => hh.2 hout), if_neg (by simp [isNanF_map_some])]
    refine ⟨_, rfl, ?_⟩
    intro j d hj
    rw [getD_fillTo, if_pos ⟨hj, by rw [rocp_loop_length]; omega⟩]
  · intro cfg in0Q in1Q period bufs0 h2 hple hlen1 hb1 hb2 hb3 hb4 hb5 hb6
    obtain ⟨B, heq, hBc⟩ := correl_ok cfg (in0Q.map some) (in1Q.map some) period bufs0 h2
      (by simpa using hple) (by simp [hlen1]) (by simpa using hb1) (by simpa using hb2)
      (by simpa using hb3) (by simpa using hb4) (by simpa using hb5) (by simpa using hb6)
      (by simpa using range_scan_map_some in0Q in1Q in0Q.length)
    refine ⟨B, heq, ?_⟩
    intro j d hj
    rw [hBc, getD_fillTo,
      if_pos ⟨hj, by rw [correl_loop_length, List.length_set, hb1]; omega⟩]

theorem c8_fill_policy_witness :
    (2 ≤ 2 ∧ 2 ≤ 3 ∧
      (∃ out, sma.sma ⟨true, false, false⟩ ([1, 2, 3].map some) 2 [some 7, some 7, some 7] =
          .ok out ∧
        ∀ j d, j < 2 - 1 →
          out.getD j d = if (⟨true, false, false⟩ : Config).allow_nan = true then none
            else [some 7, some 7, some 7].getD j d)) ∧
    (1 ≤ 1 ∧ 1 < 3 ∧
      (∃ out, rocp.rocp ⟨true, false, false⟩ ([1, 2, 3].map some) 1 [some 7, some 7, some 7] =
          .ok out ∧ ∀ j d, j < 1 → out.getD j d = none)) ∧
    (2 ≤ 2 ∧
      (∃ B, correl.correl ⟨true, false, false⟩ ([1, 2, 3].map some) ([4, 5, 6].map some) 2
          ⟨[some (0, 0), some (0, 0), some (0, 0)], [some 0, some 0, some 0],
            [some 0, some 0, some 0], [some 0, some 0, some 0], [some 0, some 0, some 0],
            [some 0, some 0, some 0]⟩ = .ok B ∧
        ∀ j d, j < 2 - 1 → B.correl.getD j d = none)) :=
  ⟨⟨by decide, by decide,
      c8_fill_policy.1 ⟨true, false, false⟩ [1, 2, 3] 2 [some 7, some 7, some 7] (by decide)
        (by decide) (by decide)⟩,
    ⟨by decide, by decide,
      c8_fill_policy.2.1 ⟨true, false, false⟩ [1, 2, 3] 1 [some 7, some 7, some 7] (by decide)
        (by decide) (by decide)⟩,
    ⟨by decide,
      c8_fill_policy.2.2 ⟨true, false, false⟩ [1, 2, 3] [4, 5, 6] 2
        ⟨[some (0, 0), some (0, 0), some (0, 0)], [some 0, some 0, some 0],
          [some 0, some 0, some 0], [some 0, some 0, some 0], [some 0, some 0, some 0],
          [some 0, some 0, some 0]⟩ (by decide) (by decide) (by decide) (by decide) (by decide)
        (by decide) (by decide) (by decide) (by decide)⟩⟩
